import Mathlib

/-!
Verification of the cursor soft-undo / soft-redo subsystem of this
repository.  The core data structure is `CursorStateStack` — a bounded
history of cursor-state snapshots with a position pointer — together with
the `CursorUndoController` that wires editor events to the stack and
guards against re-recording its own programmatic writes.

Snapshots (`CursorState`: an ordered sequence of selections with
structural equality) are opaque to every operation verified here, so they
are embedded as an arbitrary type `α`.
-/

namespace VSCursorUndo

/-- Source constant `CursorStateStack.STACK_SIZE_LIMIT = 50`. -/
def STACK_SIZE_LIMIT : Nat := 50

/-- The position-pointer variant of `CursorStateStack` (part_001 lines
29-92): `_cursorStateHistory` is the ordered history of snapshots and
`_positionInHistory` the index of the current state.  The JS position is
a number that the operations keep non-negative (undo guards `=== 0`, the
eviction decrement starts from a value `≥ 1`), so it is embedded as `Nat`. -/
structure CursorStateStack (α : Type) where
  cursorStateHistory : List α
  positionInHistory : Nat
deriving DecidableEq

/-- Embeds `reset(currentState)`: the history becomes the singleton
`[currentState]` and the position `0`, discarding whatever state the
stack held before (part_001 lines 39-43; the constructor delegates to
`reset`, so construction is the same operation). -/
def reset (currentState : α) : CursorStateStack α :=
  ⟨[currentState], 0⟩

/-- Embeds `onStateUpdate(newState)` (part_001 lines 45-58):
`splice(position + 1)` deletes every history item after the position
(`List.take (position + 1)`); `push` appends the new state and the
position is incremented; if the history length now exceeds
`STACK_SIZE_LIMIT`, `shift()` removes the entry at index 0 (`List.tail`)
and the position is decremented. -/
def onStateUpdate (newState : α) (σ : CursorStateStack α) : CursorStateStack α :=
  let spliced := σ.cursorStateHistory.take (σ.positionInHistory + 1)
  let pushed := spliced ++ [newState]
  let pos := σ.positionInHistory + 1
  if STACK_SIZE_LIMIT < pushed.length then
    ⟨pushed.tail, pos - 1⟩
  else
    ⟨pushed, pos⟩

/-- Embeds `_getCurrentState()` (part_001 lines 60-63): the history entry at the
position.  The source asserts the entry exists (`...[position]!`); the
embedding returns the `Option` that JS indexing yields before the
assertion. -/
def getCurrentState (σ : CursorStateStack α) : Option α :=
  σ.cursorStateHistory.get? σ.positionInHistory

/-- Embeds `undo()` (part_001 lines 65-77): `null` when the position is `0`;
otherwise the position moves back by one and the new current state is
returned.  The pair is (returned value, stack after the call). -/
def undo (σ : CursorStateStack α) : Option α × CursorStateStack α :=
  if σ.positionInHistory = 0 then
    (none, σ)
  else
    let moved : CursorStateStack α := ⟨σ.cursorStateHistory, σ.positionInHistory - 1⟩
    (getCurrentState moved, moved)

/-- Embeds `redo()` (part_001 lines 79-91): `null` when the position equals
`length - 1`; otherwise the position moves forward by one and the new
current state is returned.  The comparison `position === length - 1` is
JS integer arithmetic, so it is taken in `Int` (for an empty history
`length - 1` is `-1`, not `0`). -/
def redo (σ : CursorStateStack α) : Option α × CursorStateStack α :=
  if (σ.positionInHistory : Int) = (σ.cursorStateHistory.length : Int) - 1 then
    (none, σ)
  else
    let moved : CursorStateStack α := ⟨σ.cursorStateHistory, σ.positionInHistory + 1⟩
    (getCurrentState moved, moved)

/-- The well-formedness invariant of the spec (§3 HistoryStack): the
history is never empty, holds at most `STACK_SIZE_LIMIT` entries, and the
position is a valid index. -/
def WF (σ : CursorStateStack α) : Prop :=
  σ.cursorStateHistory ≠ [] ∧
  σ.cursorStateHistory.length ≤ STACK_SIZE_LIMIT ∧
  σ.positionInHistory < σ.cursorStateHistory.length

instance {α : Type} [DecidableEq α] (σ : CursorStateStack α) : Decidable (WF σ) := by
  unfold WF
  infer_instance

/-- The stack states reachable from construction/reset by any sequence of
`reset`, `onStateUpdate` (record), `undo` and `redo`. -/
inductive Reachable {α : Type} : CursorStateStack α → Prop
  | base (s : α) : Reachable (reset s)
  | step_record (s : α) (σ : CursorStateStack α) :
      Reachable σ → Reachable (onStateUpdate s σ)
  | step_undo (σ : CursorStateStack α) :
      Reachable σ → Reachable (undo σ).2
  | step_redo (σ : CursorStateStack α) :
      Reachable σ → Reachable (redo σ).2

/-- Counts how many consecutive `undo()` calls return a non-null state
before the first null, stopping after `fuel` calls. -/
def undoSuccesses : Nat → CursorStateStack α → Nat
  | 0, _ => 0
  | fuel + 1, σ =>
    match undo σ with
    | (none, _) => 0
    | (some _, moved) => undoSuccesses fuel moved + 1

/-- The `CursorUndoController` (part_001 lines 94-166), restricted to the
state the claims are about: the `_isChangingState` guard flag, the
`_cursorStateStack`, and the editor's current selections (what
`_readState` reads back). -/
structure Controller (α : Type) where
  isChangingState : Bool
  stack : CursorStateStack α
  editorSelections : α
deriving DecidableEq

/-- The `onDidChangeCursorSelection` handler (part_001 lines 126-133):
when `_isChangingState` is set the notification is ignored; otherwise the
current state is read and recorded on the stack. -/
def onDidChangeCursorSelection (c : Controller α) : Controller α :=
  if c.isChangingState then
    c
  else
    { c with stack := onStateUpdate c.editorSelections c.stack }

/-- Embeds `_updateCursorState(newState)` (part_001 lines 144-157): `null` means
no change; otherwise the flag is raised, the selections are written to
the editor — which synchronously fires `onDidChangeCursorSelection` while
the flag is still set — and the flag is lowered. -/
def updateCursorState (c : Controller α) (newState : Option α) : Controller α :=
  match newState with
  | none => c
  | some s =>
    let writing : Controller α := { c with isChangingState := true, editorSelections := s }
    let notified := onDidChangeCursorSelection writing
    { notified with isChangingState := false }

/-- Embeds `cursorUndo()` (part_001 lines 159-161): pops the stack via `undo`
and applies the returned state. -/
def cursorUndo (c : Controller α) : Controller α :=
  let r := undo c.stack
  updateCursorState { c with stack := r.2 } r.1

/-- Embeds `cursorRedo()` (part_001 lines 163-165): advances the stack via
`redo` and applies the returned state. -/
def cursorRedo (c : Controller α) : Controller α :=
  let r := redo c.stack
  updateCursorState { c with stack := r.2 } r.1

/-- The earlier `CursorStateStack` variant of part_000 (lines 29-73) and
of the first half of cursorUndo.ts (lines 29-75): an undo stack plus the
previous state, no position pointer.  `_prevState` is nullable. -/
structure PrevStateStack (α : Type) where
  undoStack : List α
  prevState : Option α
deriving DecidableEq

/-- Embeds `onStateUpdate` of the prev-state variant (part_000 lines 40-50): if
there is a previous state it is pushed (with oldest-first eviction past
the limit), and the previous state becomes the new state. -/
def PrevStateStack.onStateUpdate (σ : PrevStateStack α) (newState : Option α) :
    PrevStateStack α :=
  match σ.prevState with
  | some p =>
    let pushed := σ.undoStack ++ [p]
    let bounded := if STACK_SIZE_LIMIT < pushed.length then pushed.tail else pushed
    ⟨bounded, newState⟩
  | none => ⟨σ.undoStack, newState⟩

/-- Embeds `undo` of the prev-state variant (part_000 lines 52-62): pops the
latest state off the undo stack and returns it. -/
def PrevStateStack.undo (σ : PrevStateStack α) : Option α × PrevStateStack α :=
  match σ.undoStack.getLast? with
  | none => (none, σ)
  | some prev => (some prev, ⟨σ.undoStack.dropLast, some prev⟩)

/-- Embeds `redo` of the prev-state variant (part_000 lines 64-67): a `TODO`
returning `null`, the state untouched. -/
def PrevStateStack.redo (σ : PrevStateStack α) : Option α × PrevStateStack α :=
  (none, σ)

/-- Embeds `redo(currState)` of the first cursorUndo.ts variant (lines 66-69):
takes the current state but is the same `TODO` returning `null`. -/
def PrevStateStack.redoCurr (σ : PrevStateStack α) (_currState : α) :
    Option α × PrevStateStack α :=
  (none, σ)

/-- The second cursorUndo.ts variant of `CursorStateStack` (lines
226-271): a history whose last entry is the current state, no position
pointer. -/
structure HistoryOnlyStack (α : Type) where
  cursorStateHistory : List α
deriving DecidableEq

/-- Embeds `reset` of the history-only variant (cursorUndo.ts lines 235-237). -/
def HistoryOnlyStack.reset (currentState : α) : HistoryOnlyStack α :=
  ⟨[currentState]⟩

/-- Embeds `onStateUpdate` of the history-only variant (cursorUndo.ts lines
239-246): push, then shift when over the limit. -/
def HistoryOnlyStack.onStateUpdate (σ : HistoryOnlyStack α) (newState : α) :
    HistoryOnlyStack α :=
  let pushed := σ.cursorStateHistory ++ [newState]
  if STACK_SIZE_LIMIT < pushed.length then ⟨pushed.tail⟩ else ⟨pushed⟩

/-- Embeds `undo` of the history-only variant (cursorUndo.ts lines 253-265):
null when only one entry remains, otherwise pop and return the new last
entry. -/
def HistoryOnlyStack.undo (σ : HistoryOnlyStack α) : Option α × HistoryOnlyStack α :=
  if σ.cursorStateHistory.length = 1 then
    (none, σ)
  else
    let popped : HistoryOnlyStack α := ⟨σ.cursorStateHistory.dropLast⟩
    (popped.cursorStateHistory.getLast?, popped)

/-- Embeds `redo` of the history-only variant (cursorUndo.ts lines 267-270): a
`TODO` returning `null`, the state untouched. -/
def HistoryOnlyStack.redo (σ : HistoryOnlyStack α) : Option α × HistoryOnlyStack α :=
  (none, σ)

/-- A concrete well-formed stack (position 1 of 3, not at the tail) used
to instantiate the universally quantified claims. -/
def sampleStack : CursorStateStack Nat :=
  ⟨[10, 20, 30], 1⟩

/-- A concrete controller in the applying state (guard flag raised) used
to instantiate the controller claims. -/
def sampleController : Controller Nat :=
  ⟨true, ⟨[10, 20], 1⟩, 5⟩

/-! ## Helper lemmas -/

theorem wf_reset (s : α) : WF (reset s) := by
  simp [WF, reset, STACK_SIZE_LIMIT]

theorem spliced_length (σ : CursorStateStack α) (s : α)
    (hpos : σ.positionInHistory < σ.cursorStateHistory.length) :
    (σ.cursorStateHistory.take (σ.positionInHistory + 1) ++ [s]).length
      = σ.positionInHistory + 2 := by
  simp [List.length_take]
  omega

theorem onStateUpdate_eq (s : α) (σ : CursorStateStack α)
    (hpos : σ.positionInHistory < σ.cursorStateHistory.length) :
    onStateUpdate s σ =
      if σ.positionInHistory + 2 ≤ STACK_SIZE_LIMIT then
        ⟨σ.cursorStateHistory.take (σ.positionInHistory + 1) ++ [s],
         σ.positionInHistory + 1⟩
      else
        ⟨(σ.cursorStateHistory.take (σ.positionInHistory + 1) ++ [s]).tail,
         σ.positionInHistory⟩ := by
  have hsl := spliced_length σ s hpos
  simp only [onStateUpdate, hsl]
  split <;> split <;> first | rfl | omega

theorem wf_onStateUpdate (s : α) (σ : CursorStateStack α) (hWF : WF σ) :
    WF (onStateUpdate s σ) := by
  obtain ⟨hne, hle, hpos⟩ := hWF
  have hsl := spliced_length σ s hpos
  rw [onStateUpdate_eq s σ hpos]
  by_cases hcap : σ.positionInHistory + 2 ≤ STACK_SIZE_LIMIT
  · rw [if_pos hcap]
    unfold WF
    dsimp only
    refine ⟨?_, ?_, ?_⟩
    · rw [← List.length_pos, hsl]; omega
    · rw [hsl]; exact hcap
    · rw [hsl]; omega
  · rw [if_neg hcap]
    have htl : ((σ.cursorStateHistory.take (σ.positionInHistory + 1) ++ [s]).tail).length
        = σ.positionInHistory + 1 := by
      rw [List.length_tail, hsl]
      omega
    unfold WF
    dsimp only
    refine ⟨?_, ?_, ?_⟩
    · rw [← List.length_pos, htl]; omega
    · rw [htl]; omega
    · rw [htl]; omega

theorem wf_undo (σ : CursorStateStack α) (hWF : WF σ) : WF (undo σ).2 := by
  obtain ⟨hne, hle, hpos⟩ := hWF
  by_cases h0 : σ.positionInHistory = 0
  · simpa [undo, h0] using ⟨hne, hle, hpos⟩
  · simp only [undo, if_neg h0]
    unfold WF
    dsimp only
    exact ⟨hne, hle, by omega⟩

theorem wf_redo (σ : CursorStateStack α) (hWF : WF σ) : WF (redo σ).2 := by
  obtain ⟨hne, hle, hpos⟩ := hWF
  by_cases hc : (σ.positionInHistory : Int) = (σ.cursorStateHistory.length : Int) - 1
  · simp only [redo, if_pos hc]
    exact ⟨hne, hle, hpos⟩
  · simp only [redo, if_neg hc]
    unfold WF
    dsimp only
    exact ⟨hne, hle, by omega⟩

theorem onStateUpdate_position_last (s : α) (σ : CursorStateStack α) (hWF : WF σ) :
    (onStateUpdate s σ).positionInHistory
      = (onStateUpdate s σ).cursorStateHistory.length - 1 := by
  have hsl := spliced_length σ s hWF.2.2
  rw [onStateUpdate_eq s σ hWF.2.2]
  split
  · dsimp only
    rw [hsl]
    omega
  · dsimp only
    rw [List.length_tail, hsl]
    omega

/-! ## Claims -/

/-- C5: every stack state reachable from construction/reset by any
sequence of reset, record (`onStateUpdate`), undo and redo operations has
a non-empty history of length at most 50, with the position pointer a
valid index into it (`0 ≤ position` holds by the `Nat` embedding, which
the operations justify: no operation ever takes the JS position below
zero). -/
theorem reachable_stack_wf (σ : CursorStateStack α) (h : Reachable σ) :
    σ.cursorStateHistory ≠ [] ∧
    σ.cursorStateHistory.length ≤ STACK_SIZE_LIMIT ∧
    σ.positionInHistory < σ.cursorStateHistory.length := by
  induction h with
  | base s => exact wf_reset s
  | step_record s σ h ih => exact wf_onStateUpdate s σ ih
  | step_undo σ h ih => exact wf_undo σ ih
  | step_redo σ h ih => exact wf_redo σ ih

/-- Witness for C5 at the concrete reachable state `reset 0`. -/
theorem reachable_stack_wf_witness :
    Reachable (reset (0 : Nat)) ∧
    ((reset (0 : Nat)).cursorStateHistory ≠ [] ∧
     (reset (0 : Nat)).cursorStateHistory.length ≤ STACK_SIZE_LIMIT ∧
     (reset (0 : Nat)).positionInHistory < (reset (0 : Nat)).cursorStateHistory.length) :=
  ⟨Reachable.base 0, reachable_stack_wf (reset 0) (Reachable.base 0)⟩

/-- C6: for all snapshots `s` and `s1`, the sequence
`reset(s); record(s1); undo()` returns exactly `s`, and a subsequent
`redo()` returns exactly `s1`.  (`reset` discards whatever stack state
came before, so the starting stack is irrelevant.) -/
theorem reset_record_undo_redo_roundtrip (s s1 : α) :
    (undo (onStateUpdate s1 (reset s))).1 = some s ∧
    (redo (undo (onStateUpdate s1 (reset s))).2).1 = some s1 :=
  ⟨rfl, rfl⟩

set_option maxRecDepth 20000 in
/-- C7: from a fresh `reset`, after 60 `record` calls with distinct
snapshots, repeated `undo()` yields exactly 49 non-null results before
the first null, and the history holds exactly 50 entries. -/
theorem record_sixty_cap_undo_count :
    undoSuccesses 100
        ((List.range 60).foldl (fun σ i => onStateUpdate (i + 1) σ) (reset 0)) = 49 ∧
    ((List.range 60).foldl (fun σ i => onStateUpdate (i + 1) σ)
        (reset 0)).cursorStateHistory.length = STACK_SIZE_LIMIT := by
  constructor <;> rfl

/-- C10: in the `CursorStateStack` variants without a position pointer —
the prev-state variant shared by part_000 and the first half of
cursorUndo.ts (whose `redo` also takes the current state), and the
history-only variant in the second half of cursorUndo.ts — `redo` returns
the null sentinel on every stack state and leaves the state unchanged. -/
theorem legacy_redo_universal_noop {α : Type} :
    (∀ σ : PrevStateStack α, σ.redo = (none, σ)) ∧
    (∀ (σ : PrevStateStack α) (currState : α), σ.redoCurr currState = (none, σ)) ∧
    (∀ σ : HistoryOnlyStack α, σ.redo = (none, σ)) :=
  ⟨fun _ => rfl, fun _ _ => rfl, fun _ => rfl⟩

/-- C1: on every well-formed stack, `record` (`onStateUpdate`) performs
exactly the spec's steps: the entries after the position are deleted
(when the position is at the last index this deletes nothing), the new
snapshot is appended with the position advancing to the new last index,
and when the length then exceeds 50 the entry at index 0 is removed and
the position decremented by one. -/
theorem record_follows_spec_steps (σ : CursorStateStack α) (s : α) (hWF : WF σ) :
    onStateUpdate s σ =
      if STACK_SIZE_LIMIT <
          (σ.cursorStateHistory.take (σ.positionInHistory + 1) ++ [s]).length then
        ⟨(σ.cursorStateHistory.take (σ.positionInHistory + 1) ++ [s]).tail,
         ((σ.cursorStateHistory.take (σ.positionInHistory + 1) ++ [s]).length - 1) - 1⟩
      else
        ⟨σ.cursorStateHistory.take (σ.positionInHistory + 1) ++ [s],
         (σ.cursorStateHistory.take (σ.positionInHistory + 1) ++ [s]).length - 1⟩ := by
  have hsl := spliced_length σ s hWF.2.2
  rw [onStateUpdate_eq s σ hWF.2.2, hsl]
  by_cases hcap : σ.positionInHistory + 2 ≤ STACK_SIZE_LIMIT
  · rw [if_pos hcap, if_neg (by omega)]
    congr 1
  · rw [if_neg hcap, if_pos (by omega)]
    congr 1

/-- Witness for C1 at `sampleStack` and snapshot `40`. -/
theorem record_follows_spec_steps_witness :
    WF sampleStack ∧
    onStateUpdate 40 sampleStack =
      (if STACK_SIZE_LIMIT <
          (sampleStack.cursorStateHistory.take (sampleStack.positionInHistory + 1)
            ++ [40]).length then
        ⟨(sampleStack.cursorStateHistory.take (sampleStack.positionInHistory + 1)
            ++ [40]).tail,
         ((sampleStack.cursorStateHistory.take (sampleStack.positionInHistory + 1)
            ++ [40]).length - 1) - 1⟩
      else
        ⟨sampleStack.cursorStateHistory.take (sampleStack.positionInHistory + 1) ++ [40],
         (sampleStack.cursorStateHistory.take (sampleStack.positionInHistory + 1)
            ++ [40]).length - 1⟩) :=
  ⟨by decide, record_follows_spec_steps sampleStack 40 (by decide)⟩

/-- C2: on every well-formed stack, `undo()` returns null and changes
nothing when the position is 0, and otherwise decrements the position by
one, leaves the history untouched, and returns (some of) the snapshot
stored at the new position. -/
theorem undo_follows_spec (σ : CursorStateStack α) (hWF : WF σ) :
    (σ.positionInHistory = 0 → undo σ = (none, σ)) ∧
    (σ.positionInHistory ≠ 0 →
      (undo σ).2.cursorStateHistory = σ.cursorStateHistory ∧
      (undo σ).2.positionInHistory = σ.positionInHistory - 1 ∧
      (undo σ).1 = σ.cursorStateHistory.get? (σ.positionInHistory - 1) ∧
      ((undo σ).1).isSome = true) := by
  obtain ⟨hne, hle, hpos⟩ := hWF
  constructor
  · intro h0
    simp [undo, h0]
  · intro h0
    have hlt : σ.positionInHistory - 1 < σ.cursorStateHistory.length := by omega
    have h2 : (undo σ).2 = ⟨σ.cursorStateHistory, σ.positionInHistory - 1⟩ := by
      simp [undo, h0]
    have h1 : (undo σ).1 = σ.cursorStateHistory.get? (σ.positionInHistory - 1) := by
      simp [undo, h0, getCurrentState]
    refine ⟨by rw [h2], by rw [h2], h1, ?_⟩
    rw [h1, List.get?_eq_get hlt]
    rfl

/-- Witness for C2 at `sampleStack`. -/
theorem undo_follows_spec_witness :
    WF sampleStack ∧
    ((sampleStack.positionInHistory = 0 → undo sampleStack = (none, sampleStack)) ∧
     (sampleStack.positionInHistory ≠ 0 →
       (undo sampleStack).2.cursorStateHistory = sampleStack.cursorStateHistory ∧
       (undo sampleStack).2.positionInHistory = sampleStack.positionInHistory - 1 ∧
       (undo sampleStack).1
         = sampleStack.cursorStateHistory.get? (sampleStack.positionInHistory - 1) ∧
       ((undo sampleStack).1).isSome = true)) :=
  ⟨by decide, undo_follows_spec sampleStack (by decide)⟩

/-- C3: on every well-formed stack, `redo()` returns null and changes
nothing when the position is the last index, and otherwise increments the
position by one, leaves the history untouched, and returns (some of) the
snapshot stored at the new position. -/
theorem redo_follows_spec (σ : CursorStateStack α) (hWF : WF σ) :
    (σ.positionInHistory = σ.cursorStateHistory.length - 1 → redo σ = (none, σ)) ∧
    (σ.positionInHistory ≠ σ.cursorStateHistory.length - 1 →
      (redo σ).2.cursorStateHistory = σ.cursorStateHistory ∧
      (redo σ).2.positionInHistory = σ.positionInHistory + 1 ∧
      (redo σ).1 = σ.cursorStateHistory.get? (σ.positionInHistory + 1) ∧
      ((redo σ).1).isSome = true) := by
  obtain ⟨hne, hle, hpos⟩ := hWF
  have hlen1 : 0 < σ.cursorStateHistory.length := List.length_pos.mpr hne
  constructor
  · intro h0
    have hc : (σ.positionInHistory : Int) = (σ.cursorStateHistory.length : Int) - 1 := by
      omega
    simp [redo, hc]
  · intro h0
    have hc : ¬ ((σ.positionInHistory : Int) = (σ.cursorStateHistory.length : Int) - 1) := by
      omega
    have hlt : σ.positionInHistory + 1 < σ.cursorStateHistory.length := by omega
    have h2 : (redo σ).2 = ⟨σ.cursorStateHistory, σ.positionInHistory + 1⟩ := by
      simp [redo, hc]
    have h1 : (redo σ).1 = σ.cursorStateHistory.get? (σ.positionInHistory + 1) := by
      simp [redo, hc, getCurrentState]
    refine ⟨by rw [h2], by rw [h2], h1, ?_⟩
    rw [h1, List.get?_eq_get hlt]
    rfl

/-- Witness for C3 at `sampleStack`. -/
theorem redo_follows_spec_witness :
    WF sampleStack ∧
    ((sampleStack.positionInHistory = sampleStack.cursorStateHistory.length - 1 →
       redo sampleStack = (none, sampleStack)) ∧
     (sampleStack.positionInHistory ≠ sampleStack.cursorStateHistory.length - 1 →
       (redo sampleStack).2.cursorStateHistory = sampleStack.cursorStateHistory ∧
       (redo sampleStack).2.positionInHistory = sampleStack.positionInHistory + 1 ∧
       (redo sampleStack).1
         = sampleStack.cursorStateHistory.get? (sampleStack.positionInHistory + 1) ∧
       ((redo sampleStack).1).isSome = true)) :=
  ⟨by decide, redo_follows_spec sampleStack (by decide)⟩

/-- C4: on every well-formed stack whose position is off the tail (the
situation `undo()` leaves behind), recording any snapshot `s2` discards
the redo branch: the `redo()` that follows returns null and leaves the
stack unchanged. -/
theorem record_discards_redo_branch (σ : CursorStateStack α) (s2 : α) (hWF : WF σ)
    (_hOff : σ.positionInHistory ≠ σ.cursorStateHistory.length - 1) :
    redo (onStateUpdate s2 σ) = (none, onStateUpdate s2 σ) := by
  have h2 := wf_onStateUpdate s2 σ hWF
  have hlast := onStateUpdate_position_last s2 σ hWF
  have hlen1 : 0 < (onStateUpdate s2 σ).cursorStateHistory.length :=
    List.length_pos.mpr h2.1
  have hc : ((onStateUpdate s2 σ).positionInHistory : Int)
      = ((onStateUpdate s2 σ).cursorStateHistory.length : Int) - 1 := by
    omega
  simp [redo, hc]

/-- Witness for C4 at `sampleStack` (position 1 of 3, off the tail) and
snapshot `40`. -/
theorem record_discards_redo_branch_witness :
    WF sampleStack ∧
    sampleStack.positionInHistory ≠ sampleStack.cursorStateHistory.length - 1 ∧
    redo (onStateUpdate 40 sampleStack) = (none, onStateUpdate 40 sampleStack) :=
  ⟨by decide, by decide,
    record_discards_redo_branch sampleStack 40 (by decide) (by decide)⟩

/-- C8: history exhaustion is a silent, idempotent no-op: on a freshly
reset history both `undo()` and `redo()` return null with the stack
unchanged, and on every well-formed stack a null result from `undo()` or
`redo()` leaves the stack exactly as it was (so repeating the call
returns null again). -/
theorem boundary_noop_silent_idempotent (σ : CursorStateStack α) (s : α) (hWF : WF σ) :
    undo (reset s) = (none, reset s) ∧
    redo (reset s) = (none, reset s) ∧
    ((undo σ).1 = none → (undo σ).2 = σ) ∧
    ((redo σ).1 = none → (redo σ).2 = σ) := by
  obtain ⟨hne, hle, hpos⟩ := hWF
  refine ⟨rfl, rfl, ?_, ?_⟩
  · intro hnone
    by_cases h0 : σ.positionInHistory = 0
    · simp [undo, h0]
    · exfalso
      have hlt : σ.positionInHistory - 1 < σ.cursorStateHistory.length := by omega
      simp only [undo, if_neg h0, getCurrentState] at hnone
      rw [List.get?_eq_get hlt] at hnone
      exact Option.noConfusion hnone
  · intro hnone
    by_cases hc : (σ.positionInHistory : Int) = (σ.cursorStateHistory.length : Int) - 1
    · simp [redo, hc]
    · exfalso
      have hlen1 : 0 < σ.cursorStateHistory.length := List.length_pos.mpr hne
      have hlt : σ.positionInHistory + 1 < σ.cursorStateHistory.length := by omega
      simp only [redo, if_neg hc, getCurrentState] at hnone
      rw [List.get?_eq_get hlt] at hnone
      exact Option.noConfusion hnone

/-- Witness for C8 at `sampleStack` and snapshot `7`. -/
theorem boundary_noop_silent_idempotent_witness :
    WF sampleStack ∧
    (undo (reset (7 : Nat)) = (none, reset 7) ∧
     redo (reset (7 : Nat)) = (none, reset 7) ∧
     ((undo sampleStack).1 = none → (undo sampleStack).2 = sampleStack) ∧
     ((redo sampleStack).1 = none → (redo sampleStack).2 = sampleStack)) :=
  ⟨by decide, boundary_noop_silent_idempotent sampleStack 7 (by decide)⟩

/-- C9: a cursor-selection notification delivered while
`_isChangingState` is set is ignored (not forwarded to the stack), and
consequently `cursorUndo`/`cursorRedo` — whose synchronous write raises
the flag around `setSelections` — leave the stack exactly as the
`undo`/`redo` call produced it, never recording a new entry. -/
theorem applying_state_never_records (c : Controller α)
    (hFlag : c.isChangingState = true) :
    onDidChangeCursorSelection c = c ∧
    (cursorUndo c).stack = (undo c.stack).2 ∧
    (cursorRedo c).stack = (redo c.stack).2 := by
  refine ⟨by simp [onDidChangeCursorSelection, hFlag], ?_, ?_⟩
  · cases hr : (undo c.stack).1 with
    | none => simp [cursorUndo, updateCursorState, hr]
    | some s => simp [cursorUndo, updateCursorState, onDidChangeCursorSelection, hr]
  · cases hr : (redo c.stack).1 with
    | none => simp [cursorRedo, updateCursorState, hr]
    | some s => simp [cursorRedo, updateCursorState, onDidChangeCursorSelection, hr]

/-- Witness for C9 at `sampleController` (flag raised). -/
theorem applying_state_never_records_witness :
    onDidChangeCursorSelection sampleController = sampleController ∧
    (cursorUndo sampleController).stack = (undo sampleController.stack).2 ∧
    (cursorRedo sampleController).stack = (redo sampleController.stack).2 :=
  applying_state_never_records sampleController (by decide)

end VSCursorUndo
